import Mathlib

/-!
Verification of the tapper repository (a Go CLI that runs terraform across
multiple profiles in parallel).  The Go sources are shallowly embedded:

* Go byte strings are modelled as `List Char` (`Str`); the configuration
  files handled here are ASCII, where Go's unicode-aware helpers
  (`strings.TrimSpace`, `strings.ToLower`) agree with the ASCII versions
  defined below.
* Filesystem and process effects are modelled by explicit oracles
  (`ProcOutcome`, `TaskOracle`, `InitOracle`, `PlanOracle`) recording the
  observable outcome of each external interaction, and every function that
  spawns a process also returns the list of spawn events, in order.
* Standard input is a list of read results (`none` = read error / EOF).
* Wall-clock durations and output colouring are not modelled.
-/

namespace Tapper

/-- Go strings, as lists of characters. -/
abbrev Str := List Char

/-- Characters of a Lean string literal (used to write Go string literals). -/
def chars (s : String) : Str := s.data

/-- The characters Go's `strings.TrimSpace` removes on ASCII input. -/
def isGoSpace (c : Char) : Bool :=
  c = ' ' || c = '\t' || c = '\n' || c = Char.ofNat 11 || c = Char.ofNat 12 || c = '\r'

/-- Drop leading and trailing characters satisfying `p`
(Go `strings.TrimFunc` / `strings.Trim`). -/
def goTrim (p : Char → Bool) (s : Str) : Str :=
  ((s.dropWhile p).reverse.dropWhile p).reverse

/-- Go `strings.TrimSpace` (ASCII fragment). -/
def goTrimSpace (s : Str) : Str := goTrim isGoSpace s

/-- Go `strings.Trim(s, "\"'")`: strip surrounding double or single quotes. -/
def trimQuotes (s : Str) : Str :=
  goTrim (fun c => c = '"' || c = Char.ofNat 39) s

/-- Go `strings.HasPrefix p s` reads `leadsWith p s`: `p` starts `s`. -/
def leadsWith : Str → Str → Bool
  | [], _ => true
  | _ :: _, [] => false
  | a :: p, b :: s => a == b && leadsWith p s

/-- Go `strings.HasSuffix`: `suf` ends `s`. -/
def trailsWith (suf s : Str) : Bool := leadsWith suf.reverse s.reverse

/-- Go `strings.Contains s sub`: `sub` occurs inside `s`. -/
def containsSub : Str → Str → Bool
  | s, sub =>
    if leadsWith sub s then true
    else
      match s with
      | [] => false
      | _ :: t => containsSub t sub

/-- Go `strings.ToLower` (ASCII fragment). -/
def toLowerStr (s : Str) : Str := s.map Char.toLower

/-- Go `strings.Split content "\n"`: split on every newline, keeping empty
fields (`n` separators produce `n+1` fields). -/
def splitLines : Str → List Str
  | [] => [[]]
  | c :: rest =>
    if c = '\n' then [] :: splitLines rest
    else
      match splitLines rest with
      | l :: ls => (c :: l) :: ls
      | [] => [[c]]

/-- Go `strings.SplitN line "=" 2`: `some (before, after)` when `line`
contains `'='` (split at the first occurrence), `none` otherwise. -/
def splitEq : Str → Option (Str × Str)
  | [] => none
  | c :: rest =>
    if c = '=' then some ([], rest)
    else
      match splitEq rest with
      | some (a, b) => some (c :: a, b)
      | none => none

/-! ## pkg/utils/aws.go -/

/-- `utils.SSOTokenExpiredError`: the fixed session-expiry signature. -/
def ssoTokenExpiredError : Str :=
  chars "SSOProviderInvalidToken: the SSO session has expired or is invalid"

/-- `utils.IsAWSSSOTokenExpired`: substring match against the signature. -/
def isAWSSSOTokenExpired (output : Str) : Bool :=
  containsSub output ssoTokenExpiredError

/-- Loop body of `utils.ExtractProfileFromBackendConfig`, over the list of
lines: trim each line, skip comments and blanks, and on the first line with
the `profile` key and an `=`, return the trimmed, quote-stripped value. -/
def extractProfileLines : List Str → Except Str Str
  | [] => .error (chars "profile parameter not found in backend config")
  | line :: rest =>
    let l := goTrimSpace line
    if leadsWith (chars "#") l || l.isEmpty then extractProfileLines rest
    else if leadsWith (chars "profile") l then
      match splitEq l with
      | some (_, v) => .ok (trimQuotes (goTrimSpace v))
      | none => extractProfileLines rest
    else extractProfileLines rest

/-- `utils.ExtractProfileFromBackendConfig`. -/
def extractProfileFromBackendConfig (content : Str) : Except Str Str :=
  extractProfileLines (splitLines content)

/-- A trimmed line eligible to provide the profile value: non-comment,
non-blank, beginning with the `profile` key and carrying a value. -/
def eligibleLine (l : Str) : Bool :=
  !leadsWith (chars "#") l && !l.isEmpty &&
    leadsWith (chars "profile") l && (splitEq l).isSome

/-- The value a trimmed eligible line provides: the part after the first
`=`, whitespace-trimmed, with surrounding quotes stripped. -/
def lineValue (l : Str) : Str :=
  match splitEq l with
  | some (_, v) => trimQuotes (goTrimSpace v)
  | none => []

theorem extractProfileLines_eq_find (ls : List Str) :
    extractProfileLines ls =
      match (ls.map goTrimSpace).find? eligibleLine with
      | some l => .ok (lineValue l)
      | none => .error (chars "profile parameter not found in backend config") := by
  induction ls with
  | nil => rfl
  | cons line rest ih =>
    simp only [extractProfileLines, List.map_cons, List.find?_cons]
    by_cases h1 : (leadsWith (chars "#") (goTrimSpace line) || (goTrimSpace line).isEmpty) = true
    · have he : eligibleLine (goTrimSpace line) = false := by
        rcases Bool.or_eq_true _ _ |>.mp h1 with h | h <;>
          simp [eligibleLine, h]
      simp [h1, he, ih]
    · have h1' : leadsWith (chars "#") (goTrimSpace line) = false ∧
          (goTrimSpace line).isEmpty = false := by
        constructor <;> (revert h1; cases leadsWith (chars "#") (goTrimSpace line) <;>
          cases (goTrimSpace line).isEmpty <;> simp)
      by_cases h2 : leadsWith (chars "profile") (goTrimSpace line) = true
      · cases hsp : splitEq (goTrimSpace line) with
        | some pv =>
          have he : eligibleLine (goTrimSpace line) = true := by
            simp [eligibleLine, h1'.1, h1'.2, h2, hsp]
          simp [h1, h2, hsp, he, lineValue]
        | none =>
          have he : eligibleLine (goTrimSpace line) = false := by
            simp [eligibleLine, hsp]
          simp [h1, h2, hsp, he, ih]
      · have he : eligibleLine (goTrimSpace line) = false := by
          simp [eligibleLine, Bool.eq_false_iff.mpr h2]
        simp [h1, h2, he, ih]

/-- C9: for every backend-configuration text, profile extraction returns the
quote-stripped value of the first non-comment, non-blank trimmed line that
begins with the `profile` key (and carries a value), and a hard error when no
such line exists. -/
theorem extractProfile_first_profile_line (content : Str) :
    extractProfileFromBackendConfig content =
      match ((splitLines content).map goTrimSpace).find? eligibleLine with
      | some l => .ok (lineValue l)
      | none => .error (chars "profile parameter not found in backend config") :=
  extractProfileLines_eq_find (splitLines content)

/-! ## pkg/workspace (part_006): WorkspaceManager -/

/-- An entry of the workspace parent directory (`os.ReadDir` view). -/
structure DirEntry where
  name : Str
  isDir : Bool
deriving DecidableEq

/-- `workspace.WorkspaceManager`.  `BaseName` is the base name of
`BaseDirPath` (the shared source directory); the parent directory itself is
modelled by the `DirEntry` lists passed to the operations. -/
structure WorkspaceManager where
  BaseName : Str
  OperationID : Str
  ProfileSpaces : List (Str × Str)
deriving DecidableEq

/-- Workspace directory name from `CreateWorkspaces`:
`fmt.Sprintf(".%s-%s-%s", baseDir, profile.Name, wm.OperationID)`. -/
def wsDirName (base profile opID : Str) : Str :=
  '.' :: (base ++ '-' :: (profile ++ '-' :: opID))

/-- The removal test of `WorkspaceManager.Cleanup`: a directory whose name
has prefix `".<base>-"` and suffix `"-<operationID>"`. -/
def cleanupMatches (wm : WorkspaceManager) (e : DirEntry) : Bool :=
  e.isDir && leadsWith ('.' :: (wm.BaseName ++ ['-'])) e.name &&
    trailsWith ('-' :: wm.OperationID) e.name

/-- `WorkspaceManager.Cleanup` over the parent-directory entries.
`removeFail` says whether `os.RemoveAll` fails on a given name; on the first
failure the Go code returns the error immediately, leaving the remaining
entries and the `ProfileSpaces` map untouched.  When the loop completes the
map is cleared and `nil` is returned. -/
def cleanupRun (wm : WorkspaceManager) (removeFail : Str → Bool) :
    List DirEntry → List DirEntry × WorkspaceManager × Option Str
  | [] => ([], { wm with ProfileSpaces := [] }, none)
  | e :: rest =>
    if cleanupMatches wm e then
      if removeFail e.name then
        (e :: rest, wm, some (chars "error removing workspace"))
      else cleanupRun wm removeFail rest
    else
      let r := cleanupRun wm removeFail rest
      (e :: r.1, r.2.1, r.2.2)

/-- `WorkspaceManager.CreateWorkspaces`: one directory per profile, named by
`wsDirName`, added to the parent directory and recorded in the map. -/
def createWorkspacesRun (wm : WorkspaceManager) (profiles : List Str)
    (parent : List DirEntry) : List DirEntry × WorkspaceManager :=
  (parent ++ profiles.map (fun p => ⟨wsDirName wm.BaseName p wm.OperationID, true⟩),
   { wm with ProfileSpaces := wm.ProfileSpaces ++
      profiles.map (fun p => (p, wsDirName wm.BaseName p wm.OperationID)) })

theorem leadsWith_iff (p s : Str) : leadsWith p s = true ↔ ∃ t, s = p ++ t := by
  induction p generalizing s with
  | nil => simp [leadsWith]
  | cons a p ih =>
    cases s with
    | nil => simp [leadsWith]
    | cons b s =>
      simp only [leadsWith, Bool.and_eq_true, beq_iff_eq, ih, List.cons_append]
      constructor
      · rintro ⟨rfl, t, rfl⟩; exact ⟨t, rfl⟩
      · rintro ⟨t, h⟩
        injection h with h1 h2
        exact ⟨h1.symm, t, h2⟩

theorem leadsWith_length {p s : Str} (h : leadsWith p s = true) :
    p.length ≤ s.length := by
  obtain ⟨t, rfl⟩ := (leadsWith_iff p s).mp h
  simp

theorem trailsWith_iff (suf s : Str) :
    trailsWith suf s = true ↔ ∃ t, s = t ++ suf := by
  rw [trailsWith, leadsWith_iff]
  constructor
  · rintro ⟨t, h⟩
    refine ⟨t.reverse, ?_⟩
    have := congrArg List.reverse h
    simpa using this
  · rintro ⟨t, rfl⟩
    exact ⟨t.reverse, by simp⟩

theorem cleanupRun_noFail (wm : WorkspaceManager) (entries : List DirEntry) :
    cleanupRun wm (fun _ => false) entries =
      (entries.filter (fun e => !cleanupMatches wm e),
       { wm with ProfileSpaces := [] }, none) := by
  induction entries with
  | nil => rfl
  | cons e rest ih =>
    cases h : cleanupMatches wm e <;> simp [cleanupRun, h, ih, List.filter]

theorem cleanupRun_none_inv (wm : WorkspaceManager) (rf : Str → Bool)
    (entries e₁ : List DirEntry) (wm₁ : WorkspaceManager)
    (h : cleanupRun wm rf entries = (e₁, wm₁, none)) :
    wm₁ = { wm with ProfileSpaces := [] } ∧
      ∀ e ∈ e₁, cleanupMatches wm e = false := by
  induction entries generalizing e₁ with
  | nil =>
    simp only [cleanupRun, Prod.mk.injEq] at h
    obtain ⟨h1, h2, -⟩ := h
    exact ⟨h2.symm, by simp [← h1]⟩
  | cons e rest ih =>
    by_cases hm : cleanupMatches wm e = true
    · by_cases hf : rf e.name = true
      · simp [cleanupRun, hm, hf] at h
      · simp only [cleanupRun, hm, if_true, hf, if_false, Bool.false_eq_true] at h
        exact ih e₁ h
    · simp only [cleanupRun, hm, if_false, Bool.false_eq_true, Prod.mk.injEq] at h
      obtain ⟨h1, h2, h3⟩ := h
      obtain ⟨hw, hall⟩ := ih (cleanupRun wm rf rest).1
        (by rw [← h2, ← h3])
      refine ⟨hw, ?_⟩
      intro x hx
      rw [← h1] at hx
      rcases List.mem_cons.mp hx with rfl | hx'
      · exact Bool.eq_false_iff.mpr hm
      · exact hall x hx'

theorem cleanupRun_no_matches (wm : WorkspaceManager) (rf : Str → Bool)
    (l : List DirEntry) (h : ∀ e ∈ l, cleanupMatches wm e = false) :
    cleanupRun wm rf l = (l, { wm with ProfileSpaces := [] }, none) := by
  induction l with
  | nil => rfl
  | cons e rest ih =>
    have he := h e (List.mem_cons_self e rest)
    have hr := ih (fun x hx => h x (List.mem_cons_of_mem e hx))
    simp [cleanupRun, he, hr]

/-- C4: teardown's removal test selects exactly directories named with the
`.<base>-` prefix and the `-<operationID>` suffix.  The shared source tree
(named `base`) never matches; a workspace of a different operation
identifier (both identifiers being 8 characters, as generated from 4 random
bytes) never matches; every workspace directory created for this operation
matches; and cleanup removes exactly the matching entries, so afterwards no
entry carrying this operation's identifier remains. -/
theorem cleanup_removes_exactly_own (wm : WorkspaceManager)
    (entries : List DirEntry) (p q oid' : Str) (d d' : Bool)
    (h8 : wm.OperationID.length = 8) (h8' : oid'.length = 8)
    (hne : oid' ≠ wm.OperationID) :
    cleanupMatches wm ⟨wm.BaseName, d⟩ = false ∧
    cleanupMatches wm ⟨wsDirName wm.BaseName q oid', d'⟩ = false ∧
    cleanupMatches wm ⟨wsDirName wm.BaseName p wm.OperationID, true⟩ = true ∧
    (cleanupRun wm (fun _ => false) entries).1 =
      entries.filter (fun e => !cleanupMatches wm e) ∧
    ∀ e ∈ (cleanupRun wm (fun _ => false) entries).1,
      cleanupMatches wm e = false := by
  refine ⟨?_, ?_, ?_, ?_, ?_⟩
  · -- the shared source tree is never removed
    have hlw : leadsWith ('.' :: (wm.BaseName ++ ['-'])) wm.BaseName = false := by
      rw [Bool.eq_false_iff]
      intro hcon
      have := leadsWith_length hcon
      simp at this
      omega
    simp [cleanupMatches, hlw]
  · -- another operation's workspaces are never removed
    have htw : trailsWith ('-' :: wm.OperationID)
        (wsDirName wm.BaseName q oid') = false := by
      rw [Bool.eq_false_iff]
      intro hcon
      obtain ⟨t, ht⟩ := (trailsWith_iff _ _).mp hcon
      have ha : wsDirName wm.BaseName q oid' =
          ('.' :: (wm.BaseName ++ '-' :: q)) ++ ('-' :: oid') := by
        simp [wsDirName]
      rw [ha] at ht
      have hlc := congrArg List.length ht
      simp only [List.length_append, List.length_cons, h8, h8'] at hlc
      have hlen : ('.' :: (wm.BaseName ++ '-' :: q)).length = t.length := by
        simp only [List.length_append, List.length_cons]
        omega
      obtain ⟨-, h2⟩ := List.append_inj ht hlen
      exact hne (by simpa using h2)
    simp [cleanupMatches, htw]
  · -- this operation's workspaces all match
    have h1 : leadsWith ('.' :: (wm.BaseName ++ ['-']))
        (wsDirName wm.BaseName p wm.OperationID) = true := by
      rw [leadsWith_iff]
      exact ⟨p ++ '-' :: wm.OperationID, by simp [wsDirName]⟩
    have h2 : trailsWith ('-' :: wm.OperationID)
        (wsDirName wm.BaseName p wm.OperationID) = true := by
      rw [trailsWith_iff]
      exact ⟨'.' :: (wm.BaseName ++ '-' :: p), by simp [wsDirName]⟩
    simp [cleanupMatches, h1, h2]
  · rw [cleanupRun_noFail]
  · intro e he
    rw [cleanupRun_noFail] at he
    have := List.of_mem_filter he
    simpa using this

theorem cleanup_removes_exactly_own_witness :
    cleanupMatches ⟨chars "infra", chars "aabbccdd", []⟩
      ⟨wsDirName (chars "infra") (chars "dev") (chars "aabbccdd"), true⟩ = true :=
  (cleanup_removes_exactly_own ⟨chars "infra", chars "aabbccdd", []⟩ []
    (chars "dev") (chars "dev") (chars "00112233") true true
    (by decide) (by decide) (by decide)).2.2.1

/-- C8: teardown is idempotent.  If a first cleanup completed without error,
a second cleanup of the resulting directory state removes nothing (it
returns the entries unchanged), leaves the profile map empty, and returns no
error — whatever removal failures the second run would have hit. -/
theorem cleanup_idempotent (wm : WorkspaceManager) (rf rf' : Str → Bool)
    (entries e₁ : List DirEntry) (wm₁ : WorkspaceManager)
    (h : cleanupRun wm rf entries = (e₁, wm₁, none)) :
    cleanupRun wm₁ rf' e₁ = (e₁, wm₁, none) ∧ wm₁.ProfileSpaces = [] := by
  obtain ⟨hw, hall⟩ := cleanupRun_none_inv wm rf entries e₁ wm₁ h
  have hmatch : ∀ e ∈ e₁, cleanupMatches wm₁ e = false := by
    intro e he
    have : cleanupMatches wm₁ e = cleanupMatches wm e := by
      rw [hw]; rfl
    rw [this]
    exact hall e he
  have h2 := cleanupRun_no_matches wm₁ rf' e₁ hmatch
  have hid : { wm₁ with ProfileSpaces := ([] : List (Str × Str)) } = wm₁ := by
    rw [hw]
  rw [h2, hid]
  exact ⟨rfl, by rw [hw]⟩

theorem cleanup_idempotent_witness :
    cleanupRun ⟨chars "infra", chars "aabbccdd", []⟩ (fun _ => false)
        [⟨chars "infra", true⟩] =
      ([⟨chars "infra", true⟩], ⟨chars "infra", chars "aabbccdd", []⟩, none) :=
  (cleanup_idempotent ⟨chars "infra", chars "aabbccdd",
      [(chars "dev", wsDirName (chars "infra") (chars "dev") (chars "aabbccdd"))]⟩
    (fun _ => false) (fun _ => false)
    [⟨wsDirName (chars "infra") (chars "dev") (chars "aabbccdd"), true⟩,
     ⟨chars "infra", true⟩]
    [⟨chars "infra", true⟩] ⟨chars "infra", chars "aabbccdd", []⟩
    (by decide)).1

/-! ## pkg/terraform: data model (part_002 profiles, part_005 types) -/

/-- `terraform.Profile`. -/
structure Profile where
  Name : Str
  BackendConfig : Str
  VarFile : Str
  BackendDir : Str
  VarsDir : Str
  LastUsed : Str
deriving DecidableEq

/-- `terraform.ExecutionOptions`. -/
structure ExecutionOptions where
  Command : Str
  Args : List Str
  DryRun : Bool
deriving DecidableEq

/-- `terraform.ExecutionResult`.  The error is the message text, `none` for
success; wall-clock duration is not modelled. -/
structure ExecutionResult where
  ProfileName : Str
  Success : Bool
  Output : Str
  Error : Option Str
  WorkingDir : Str
deriving DecidableEq

/-- `terraform.ExecutionPlan`. -/
structure ExecutionPlan where
  Command : Str
  Profiles : List Profile
  Results : List ExecutionResult
  ApprovedProfiles : List Str
deriving DecidableEq

/-! ## pkg/terraform: CommandBuilder (part_002) -/

/-- `filepath.Join` for two components (path cleaning is not modelled; the
embedded paths contain no `.`/`..` segments). -/
def joinPath (a b : Str) : Str :=
  if a.isEmpty then b else if b.isEmpty then a else a ++ '/' :: b

/-- A built `exec.Cmd`: the terraform argument vector and working
directory. -/
structure Cmd where
  args : List Str
  dir : Str
deriving DecidableEq

/-- `terraform.CommandBuilder`. -/
structure CommandBuilder where
  WorkingDir : Str
  BackendConfig : Str
  VarFile : Str
  BackendDir : Str
  VarsDir : Str
  Targets : List Str
deriving DecidableEq

/-- `NewCommandBuilder`: defaults `backend` and `vars` directories. -/
def newCommandBuilder : CommandBuilder :=
  ⟨[], [], [], chars "backend", chars "vars", []⟩

/-- `CommandBuilder.GetVarFilePath`. -/
def getVarFilePath (cb : CommandBuilder) : Str :=
  if cb.VarFile.isEmpty then []
  else if cb.WorkingDir.isEmpty then joinPath cb.VarsDir cb.VarFile
  else joinPath cb.WorkingDir (joinPath cb.VarsDir cb.VarFile)

/-- `CommandBuilder.GetBackendConfigPath`. -/
def getBackendConfigPath (cb : CommandBuilder) : Str :=
  if cb.BackendConfig.isEmpty then []
  else if cb.WorkingDir.isEmpty then joinPath cb.BackendDir cb.BackendConfig
  else joinPath cb.WorkingDir (joinPath cb.BackendDir cb.BackendConfig)

/-- `CommandBuilder.buildTerraformCommand`: the argument vector for a
plan/apply/destroy invocation. -/
def buildTerraformCommand (cb : CommandBuilder) (opts : ExecutionOptions) : Cmd :=
  let args := [opts.Command]
  let args := args ++
    (if cb.VarFile.isEmpty then []
     else [chars "--var-file=" ++ joinPath cb.VarsDir cb.VarFile])
  let args := args ++ cb.Targets.map (fun t => chars "--target=" ++ t)
  let args := args ++
    (if opts.Command = chars "plan" then [chars "--detailed-exitcode"]
     else if opts.Command = chars "apply" ∨ opts.Command = chars "destroy" then
       (if opts.DryRun then [] else [chars "--auto-approve"])
     else [])
  ⟨args ++ opts.Args, cb.WorkingDir⟩

/-- `CommandBuilder.BuildInitCommand`. -/
def buildInitCommand (cb : CommandBuilder) : Cmd :=
  let args := [chars "init"]
  let args := args ++
    (if cb.BackendConfig.isEmpty then []
     else [chars "--backend-config=" ++ joinPath cb.BackendDir cb.BackendConfig])
  ⟨args ++ [chars "--reconfigure"], cb.WorkingDir⟩

/-- `CommandBuilder.validateVarFile`, with the filesystem answer for
`utils.CheckFileOrDirExists` supplied as `varFileExists`. -/
def validateVarFile (cb : CommandBuilder) (varFileExists : Bool) : Option Str :=
  if (getVarFilePath cb).isEmpty then none
  else if varFileExists then none
  else some (chars "var file not found: " ++ getVarFilePath cb)

/-- The builder configured from a profile by `BuildCommandFromProfile`
(`WithWorkingDir`, `WithVarFile`, `WithVarsDir`). -/
def profileBuilder (prof : Profile) (workspacePath : Str) : CommandBuilder :=
  { newCommandBuilder with
    WorkingDir := workspacePath, VarFile := prof.VarFile, VarsDir := prof.VarsDir }

/-- `CommandBuilder.BuildCommandFromProfile`: configure the builder from the
profile, reject unsupported commands, build the argument vector, then
validate the variable file. -/
def buildCommandFromProfile (prof : Profile) (workspacePath : Str)
    (opts : ExecutionOptions) (varFileExists : Bool) : Except Str Cmd :=
  let cb := profileBuilder prof workspacePath
  if opts.Command = chars "plan" ∨ opts.Command = chars "apply" ∨
      opts.Command = chars "destroy" then
    let cmd := buildTerraformCommand cb opts
    match validateVarFile cb varFileExists with
    | some e => .error e
    | none => .ok cmd
  else .error (chars "unsupported command: " ++ opts.Command)

/-! ## pkg/terraform: InteractionHandler (part_002) -/

/-- Operator input: each read yields a line (`some`) or an I/O error
(`none`); an exhausted list is a read error (EOF). -/
abbrev Stdin := List (Option Str)

/-- `getYesNoResponse`: a failed read prints a warning and defaults to
"no"; otherwise the lower-cased, trimmed answer must be `y` or `yes`. -/
def isYes (s : Str) : Bool :=
  let t := goTrimSpace (toLowerStr s)
  t = chars "y" ∨ t = chars "yes"

/-- `InteractionHandler.getYesNoResponse` over the input stream, returning
the decision and the remaining stream. -/
def getYesNoResponse : Stdin → Bool × Stdin
  | [] => (false, [])
  | none :: rest => (false, rest)
  | some s :: rest => (isYes s, rest)

/-- The per-profile review loop of `ReviewAndApproveResults`: one prompt per
result in arrival order, collecting approved profile names. -/
def reviewLoop : List ExecutionResult → Stdin → List Str × Stdin
  | [], st => ([], st)
  | r :: rs, st =>
    let a := getYesNoResponse st
    let rec' := reviewLoop rs a.2
    ((if a.1 then r.ProfileName :: rec'.1 else rec'.1), rec'.2)

/-- Outcome of the approval workflow: the approved names, how many batch
confirmations were prompted, and the returned error (always `nil` in the
source). -/
structure ReviewOutcome where
  approved : List Str
  batchPrompts : Nat
  err : Option Str
deriving DecidableEq

/-- `InteractionHandler.ConfirmBatchExecution`: one batch prompt; declining
discards all approvals. -/
def confirmBatchExecution (approvedProfiles : List Str) (st : Stdin) :
    ReviewOutcome :=
  if (getYesNoResponse st).1 then ⟨approvedProfiles, 1, none⟩
  else ⟨[], 1, none⟩

/-- `InteractionHandler.ReviewAndApproveResults`. -/
def reviewAndApproveResults (results : List ExecutionResult) (st : Stdin) :
    ReviewOutcome :=
  let r := reviewLoop results st
  if r.1.isEmpty then ⟨[], 0, none⟩
  else if results.length = 1 then ⟨r.1, 0, none⟩
  else confirmBatchExecution r.1 r.2

/-! ## pkg/terraform: Executor (part_003) -/

/-- `terraform.Executor` (the streaming handler, interaction handler and
workspace manager are modelled separately). -/
structure Executor where
  MaxConcurrency : Nat
  AdditionalArgs : List Str
deriving DecidableEq

/-- `NewExecutor`: default cap of 5 concurrent executions. -/
def newExecutor : Executor := ⟨5, []⟩

/-- `Executor.filterApprovedProfiles`: keep the profiles whose name appears
among the approved names. -/
def filterApprovedProfiles (profiles : List Profile) (approvedNames : List Str) :
    List Profile :=
  profiles.filter (fun p => approvedNames.contains p.Name)

/-- Observable outcome of one spawned process: whether `Wait` succeeded and
the text captured on its two streams. -/
structure ProcOutcome where
  ok : Bool
  stdout : Str
  stderr : Str
deriving DecidableEq

/-- Process spawns of one profile task, in order.  `ssoLogin` is the
Credential Refresher's `aws sso login`; the per-profile task code never
invokes it (`initInWorkspaceWithStreaming` has no retry path). -/
inductive TaskEvent where
  | initSpawn
  | execSpawn
  | ssoLogin
deriving DecidableEq

/-- Environment oracle for one profile task: the workspace-registry lookup,
the outcome of `terraform init` in the workspace, the variable-file
existence check, and the outcome of the operation command. -/
structure TaskOracle where
  workspacePath : Option Str
  wsInit : ProcOutcome
  varFileExists : Bool
  execRun : ProcOutcome
deriving DecidableEq

/-- `Executor.handleSSOTokenError`: wrap the failure as an SSO token error
when stderr mentions `SSO` or `token`; otherwise report nothing. -/
def handleSSOTokenError (stderrOutput : Str) : Option Str :=
  if containsSub stderrOutput (chars "SSO") ∨ containsSub stderrOutput (chars "token")
  then some (chars "SSO token error") else none

/-- `Executor.executeForProfileWithStreaming` (with
`initInWorkspaceWithStreaming` and `executeCommandWithStreaming` inlined):
look up the workspace, run `terraform init` there (no credential retry —
its failure is terminal for the profile), build the command vector, then
spawn the operation command and classify its failure.  Returns the
`ExecutionResult` and the ordered process spawns. -/
def executeForProfileTask (prof : Profile) (opts : ExecutionOptions)
    (o : TaskOracle) : ExecutionResult × List TaskEvent :=
  match o.workspacePath with
  | none =>
    (⟨prof.Name, false, [], some (chars "workspace path not found for profile"), []⟩,
     [])
  | some ws =>
    if !o.wsInit.ok then
      (⟨prof.Name, false, [], some (chars "terraform init failed"), ws⟩,
       [.initSpawn])
    else
      match buildCommandFromProfile prof ws opts o.varFileExists with
      | .error e =>
        (⟨prof.Name, false, [], some (chars "command build failed: " ++ e), ws⟩,
         [.initSpawn])
      | .ok _ =>
        let combined := o.execRun.stdout ++ o.execRun.stderr
        if o.execRun.ok then
          (⟨prof.Name, true, combined, none, ws⟩, [.initSpawn, .execSpawn])
        else
          let err :=
            match handleSSOTokenError o.execRun.stderr with
            | some e => e
            | none => chars "exit status 1"
          (⟨prof.Name, false, combined, some err, ws⟩, [.initSpawn, .execSpawn])

/-- Process spawns of a whole invocation. -/
inductive ProcEvent where
  | preflightInit
  | ssoLogin
  | taskInit (profile : Str)
  | taskExec (profile : Str)
deriving DecidableEq

/-- Tag a task's spawns with its profile name. -/
def liftTaskEvent (profile : Str) : TaskEvent → ProcEvent
  | .initSpawn => .taskInit profile
  | .execSpawn => .taskExec profile
  | .ssoLogin => .ssoLogin

/-- Environment oracle for `Executor.Init` (the pre-flight initialization in
the source directory): backend-config existence, the first `terraform init`
outcome, the backend-config file content read by the Credential Refresher,
whether `aws sso login` succeeds, and the retried init's outcome. -/
structure InitOracle where
  backendExists : Bool
  firstInit : ProcOutcome
  backendContent : Str
  loginOk : Bool
  secondInit : ProcOutcome
deriving DecidableEq

/-- `Executor.Init` (with `utils.RefreshAWSSSOFromBackendConfig` inlined):
check the backend config exists, run `terraform init`; if it fails and the
captured stderr carries the session-expiry signature, extract the provider
profile, run `aws sso login`, and retry the init exactly once, returning the
retry's own outcome.  Any other failure is returned directly. -/
def initRun (o : InitOracle) : Option Str × List ProcEvent :=
  if !o.backendExists then (some (chars "backend config file not found"), [])
  else if o.firstInit.ok then (none, [.preflightInit])
  else if isAWSSSOTokenExpired o.firstInit.stderr then
    match extractProfileFromBackendConfig o.backendContent with
    | .error _ =>
      (some (chars "error refreshing AWS SSO token: profile not found"),
       [.preflightInit])
    | .ok _ =>
      if !o.loginOk then
        (some (chars "error refreshing AWS SSO token: login failed"),
         [.preflightInit, .ssoLogin])
      else if o.secondInit.ok then (none, [.preflightInit, .ssoLogin, .preflightInit])
      else
        (some (chars "exit status 1"), [.preflightInit, .ssoLogin, .preflightInit])
  else (some (chars "exit status 1"), [.preflightInit])

/-- Environment oracle for a whole invocation. -/
structure PlanOracle where
  preflight : InitOracle
  allocOk : Bool
  tasks : Str → TaskOracle
  stdin : Stdin

/-- The dry-run options of `PlanExecution`: always plan semantics, with the
machine-checkable exit code, a destroy-scoped flag when the requested
operation is `destroy`, and the executor's additional arguments. -/
def previewOptions (command : Str) (addArgs : List Str) : ExecutionOptions :=
  ⟨chars "plan",
   chars "--detailed-exitcode" ::
     ((if command = chars "destroy" then [chars "--destroy"] else []) ++ addArgs),
   true⟩

/-- Results and spawns of one bounded-parallel pass (`parallelExecution`);
results are collected here in profile order — the claims proved below are
insensitive to the completion order of the real channel. -/
def parallelPass (profiles : List Profile) (opts : ExecutionOptions)
    (tasks : Str → TaskOracle) : List ExecutionResult × List ProcEvent :=
  (profiles.map (fun p => (executeForProfileTask p opts (tasks p.Name)).1),
   (profiles.map (fun p =>
      (executeForProfileTask p opts (tasks p.Name)).2.map (liftTaskEvent p.Name))).flatten)

/-- `Executor.PlanExecution`: reject an empty profile list, run the
pre-flight init for the first profile, allocate the workspaces, run the
dry-run pass, and collect approvals.  Returns the plan (or the error) and
every process spawn, in order. -/
def planExecutionRun (command : Str) (profiles : List Profile)
    (addArgs : List Str) (o : PlanOracle) :
    Except Str ExecutionPlan × List ProcEvent :=
  if profiles.isEmpty then (.error (chars "no profiles provided"), [])
  else
    let ir := initRun o.preflight
    match ir.1 with
    | some e => (.error (chars "error running terraform init: " ++ e), ir.2)
    | none =>
      if !o.allocOk then (.error (chars "error creating workspaces"), ir.2)
      else
        let pass := parallelPass profiles (previewOptions command addArgs) o.tasks
        let review := reviewAndApproveResults pass.1 o.stdin
        (.ok ⟨command, profiles, [], review.approved⟩, ir.2 ++ pass.2)

/-- `Executor.ExecutePlan`: the real pass, restricted to the approved
profiles. -/
def executePlanRun (plan : ExecutionPlan) (addArgs : List Str)
    (tasks : Str → TaskOracle) : List ExecutionResult × List ProcEvent :=
  parallelPass (filterApprovedProfiles plan.Profiles plan.ApprovedProfiles)
    ⟨plan.Command, addArgs, false⟩ tasks

/-! ## Scheduler model (`executeParallelCommand`, part_003)

One goroutine per profile; each acquires a slot of a buffered channel of
capacity `MaxConcurrency` before running its external-tool processes (which
it runs sequentially) and releases the slot when done.  A task therefore
occupies a slot exactly while its processes can run. -/

/-- The lifecycle of one worker task: not yet admitted, holding a slot (its
external-tool process may be running), or finished (slot released). -/
inductive Phase where
  | idle
  | running
  | done
deriving DecidableEq

/-- Tasks currently holding a slot of the admission gate. -/
def countRunning (s : List Phase) : Nat :=
  s.countP (fun p => p == Phase.running)

/-- One scheduler transition under capacity `C`: a waiting task may start
only when a slot is free (`semaphore <- struct{}{}` on a buffer of size
`C`); a running task may finish, releasing its slot. -/
inductive SchedStep (C : Nat) : List Phase → List Phase → Prop
  | start (s : List Phase) (i : Nat) (hi : s.get? i = some .idle)
      (hc : countRunning s < C) : SchedStep C s (s.set i .running)
  | finish (s : List Phase) (i : Nat) (hi : s.get? i = some .running) :
      SchedStep C s (s.set i .done)

/-- States reachable by the pass scheduler from `n` pending tasks. -/
inductive SchedReach (C n : Nat) : List Phase → Prop
  | start : SchedReach C n (List.replicate n .idle)
  | step {s s' : List Phase} : SchedReach C n s → SchedStep C s s' →
      SchedReach C n s'

theorem countP_set_le (p : Phase → Bool) (s : List Phase) (i : Nat) (x : Phase) :
    (s.set i x).countP p ≤ s.countP p + (if p x then 1 else 0) := by
  induction s generalizing i with
  | nil => simp [List.countP_nil]
  | cons a t ih =>
    cases i with
    | zero =>
      simp only [List.set_cons_zero, List.countP_cons]
      have := List.countP_le_length (l := t) (p := p)
      by_cases hx : p x <;> by_cases ha : p a <;> simp [hx, ha]
    | succ j =>
      simp only [List.set_cons_succ, List.countP_cons]
      have := ih j
      by_cases ha : p a <;> simp [ha] <;> omega

theorem countRunning_replicate_idle (n : Nat) :
    countRunning (List.replicate n Phase.idle) = 0 := by
  induction n with
  | zero => rfl
  | succ m ih =>
    rw [countRunning] at ih ⊢
    simp [List.replicate_succ, List.countP_cons, ih]

/-- C7: in every state the pass scheduler can reach, no more than
`MaxConcurrency` tasks hold a slot of the admission gate, so no more than
`MaxConcurrency` external-tool processes run simultaneously; a task beyond
the bound stays idle until a slot frees. -/
theorem concurrency_bound (E : Executor) (n : Nat) (s : List Phase)
    (h : SchedReach E.MaxConcurrency n s) : countRunning s ≤ E.MaxConcurrency := by
  induction h with
  | start => simp [countRunning_replicate_idle]
  | step hr hs ih =>
    rename_i s s'
    cases hs with
    | start i hi hc =>
      have h2 := countP_set_le (fun p => p == Phase.running) s i Phase.running
      simp only [beq_self_eq_true, if_true] at h2
      unfold countRunning at hc ⊢
      omega
    | finish i hi =>
      have h2 := countP_set_le (fun p => p == Phase.running) s i Phase.done
      simp at h2
      unfold countRunning at ih ⊢
      omega

theorem concurrency_bound_witness :
    newExecutor.MaxConcurrency = 5 ∧
      countRunning ((List.replicate 7 Phase.idle).set 0 Phase.running) ≤
        newExecutor.MaxConcurrency :=
  ⟨rfl,
   concurrency_bound newExecutor 7 _
     (SchedReach.step SchedReach.start
       (SchedStep.start _ 0 (by decide)
         (by rw [countRunning_replicate_idle]; decide)))⟩

/-! ## Approval workflow theorems -/

theorem reviewLoop_subset (results : List ExecutionResult) (st : Stdin)
    (n : Str) (h : n ∈ (reviewLoop results st).1) :
    n ∈ results.map ExecutionResult.ProfileName := by
  induction results generalizing st with
  | nil => simp [reviewLoop] at h
  | cons r rs ih =>
    simp only [reviewLoop] at h
    by_cases ha : (getYesNoResponse st).1 = true
    · simp only [ha, if_true] at h
      rcases List.mem_cons.mp h with rfl | h'
      · simp
      · simp only [List.map_cons, List.mem_cons]
        exact Or.inr (ih _ h')
    · simp only [ha, if_false] at h
      simp only [List.map_cons, List.mem_cons]
      exact Or.inr (ih _ h)

theorem reviewOutcome_subset (results : List ExecutionResult) (st : Stdin)
    (n : Str) (h : n ∈ (reviewAndApproveResults results st).approved) :
    n ∈ results.map ExecutionResult.ProfileName := by
  simp only [reviewAndApproveResults] at h
  by_cases h1 : (reviewLoop results st).1.isEmpty = true
  · simp [h1] at h
  · simp only [h1, if_false] at h
    by_cases h2 : results.length = 1
    · simp only [h2, if_true] at h
      exact reviewLoop_subset results st n h
    · simp only [h2, if_false, confirmBatchExecution] at h
      by_cases h3 : (getYesNoResponse (reviewLoop results st).2).1 = true
      · simp only [h3, if_true] at h
        exact reviewLoop_subset results st n h
      · simp [h3] at h

/-- C2: the approval review over the collected results. With zero per-profile
approvals the approved set is empty and no batch confirmation is prompted;
with exactly one reviewed result the per-profile decision is final with no
batch step; with two or more results and at least one approval exactly one
batch confirmation is prompted, and declining it empties the approved set
while confirming it leaves the per-profile approvals unchanged. -/
theorem review_batch_confirmation (results : List ExecutionResult) (st : Stdin) :
    ((reviewLoop results st).1 = [] →
      (reviewAndApproveResults results st).approved = [] ∧
        (reviewAndApproveResults results st).batchPrompts = 0) ∧
    (results.length = 1 →
      (reviewAndApproveResults results st).approved = (reviewLoop results st).1 ∧
        (reviewAndApproveResults results st).batchPrompts = 0) ∧
    (2 ≤ results.length → (reviewLoop results st).1 ≠ [] →
      (reviewAndApproveResults results st).batchPrompts = 1 ∧
      ((getYesNoResponse (reviewLoop results st).2).1 = false →
        (reviewAndApproveResults results st).approved = []) ∧
      ((getYesNoResponse (reviewLoop results st).2).1 = true →
        (reviewAndApproveResults results st).approved = (reviewLoop results st).1)) := by
  refine ⟨?_, ?_, ?_⟩
  · intro hpp
    simp [reviewAndApproveResults, hpp]
  · intro hlen
    by_cases hpp : (reviewLoop results st).1.isEmpty = true
    · rw [List.isEmpty_iff] at hpp
      simp [reviewAndApproveResults, hpp]
    · simp [reviewAndApproveResults, hpp, hlen]
  · intro hlen hpp
    have hpp' : (reviewLoop results st).1.isEmpty = false := by
      rw [Bool.eq_false_iff]
      intro hcon
      exact hpp (List.isEmpty_iff.mp hcon)
    have hlen1 : results.length ≠ 1 := by omega
    simp only [reviewAndApproveResults, hpp', Bool.false_eq_true, if_false,
      hlen1, confirmBatchExecution]
    by_cases hb : (getYesNoResponse (reviewLoop results st).2).1 = true <;>
      simp [hb]

theorem review_batch_confirmation_witness :
    (reviewAndApproveResults
        [⟨chars "dev", true, [], none, chars "/ws"⟩,
         ⟨chars "prod", true, [], none, chars "/ws2"⟩]
        [some (chars "y"), some (chars "n"), some (chars "yes")]).batchPrompts = 1 :=
  ((review_batch_confirmation
      [⟨chars "dev", true, [], none, chars "/ws"⟩,
       ⟨chars "prod", true, [], none, chars "/ws2"⟩]
      [some (chars "y"), some (chars "n"), some (chars "yes")]).2.2
    (by decide) (by decide)).1

/-- C10 counterexample: an I/O error while reading the approval response for
the only reviewed profile does not abort the invocation — the review step
records a rejection and returns an empty approved set with a `nil` error. -/
theorem approval_read_error_cex :
    reviewAndApproveResults [⟨chars "dev", true, [], none, chars "/ws"⟩]
        [none] = ⟨[], 0, none⟩ := by
  decide

/-- C10 (amended): a failed read of an approval response is handled by
defaulting that answer to "no" — the review behaves exactly as if the
operator had answered `n` — and the approval-collection step never returns
an error. -/
theorem approval_read_error_defaults_no (results : List ExecutionResult)
    (st : Stdin) :
    reviewAndApproveResults results (none :: st) =
      reviewAndApproveResults results (some (chars "n") :: st) ∧
    (reviewAndApproveResults results st).err = none := by
  constructor
  · have hn : isYes (chars "n") = false := by decide
    cases results with
    | nil => rfl
    | cons r rs =>
      simp [reviewAndApproveResults, reviewLoop, getYesNoResponse, hn]
  · simp only [reviewAndApproveResults, confirmBatchExecution]
    split
    · rfl
    · split
      · rfl
      · split <;> rfl

/-! ## Concrete inputs shared by witnesses and counterexamples -/

/-- A concrete profile as `DetectProfiles` would discover it. -/
def devProfile : Profile :=
  ⟨chars "dev", chars "dev.tfbackend", chars "dev.tfvars",
   chars "backend", chars "vars", []⟩

/-- A successful process outcome. -/
def okProc : ProcOutcome := ⟨true, [], []⟩

/-- A task environment in which everything succeeds. -/
def okTask : TaskOracle := ⟨some (chars "/ws"), okProc, true, okProc⟩

/-- A pre-flight environment in which the first init succeeds. -/
def okInit : InitOracle := ⟨true, okProc, [], true, okProc⟩

/-- The dry-run options for a `plan` invocation with no extra arguments. -/
def previewPlanOpts : ExecutionOptions := previewOptions (chars "plan") []

/-- An invocation whose operator rejects the only profile. -/
def rejectOracle : PlanOracle := ⟨okInit, true, fun _ => okTask, [some (chars "n")]⟩

/-- An invocation in which workspace allocation fails. -/
def allocFailOracle : PlanOracle := ⟨okInit, false, fun _ => okTask, []⟩

/-- A pre-flight environment whose first init fails with the session-expiry
signature on stderr, with a refreshable backend config, and whose retried
init fails again. -/
def expiredInitOracle : InitOracle :=
  ⟨true, ⟨false, [], ssoTokenExpiredError⟩, chars "profile = dev", true,
   ⟨false, [], []⟩⟩

/-- A task environment whose workspace init fails with the session-expiry
signature on stderr. -/
def expiredWsTask : TaskOracle :=
  ⟨some (chars "/ws"), ⟨false, [], ssoTokenExpiredError⟩, true, okProc⟩

/-- A task environment whose variable-file existence check fails. -/
def varMissingTask : TaskOracle := ⟨some (chars "/ws"), okProc, false, okProc⟩

/-! ## Executor theorems -/

theorem taskResult_name (prof : Profile) (opts : ExecutionOptions)
    (o : TaskOracle) :
    (executeForProfileTask prof opts o).1.ProfileName = prof.Name := by
  rw [executeForProfileTask]
  rcases o.workspacePath with _ | ws
  · rfl
  · dsimp only
    split
    · rfl
    · split
      · rfl
      · split <;> rfl

theorem parallelPass_names (profiles : List Profile) (opts : ExecutionOptions)
    (tasks : Str → TaskOracle) :
    (parallelPass profiles opts tasks).1.map ExecutionResult.ProfileName =
      profiles.map Profile.Name := by
  simp [parallelPass, List.map_map, Function.comp_def, taskResult_name]

/-- C3: an execution plan returned by the dry-run pass has its approved set
drawn from the plan's own profile list, and with an empty approved set the
real pass runs zero tasks and spawns zero processes. -/
theorem plan_approved_subset (command : Str) (profiles : List Profile)
    (addArgs : List Str) (o : PlanOracle) (plan : ExecutionPlan)
    (ev : List ProcEvent)
    (h : planExecutionRun command profiles addArgs o = (.ok plan, ev)) :
    (∀ n ∈ plan.ApprovedProfiles, n ∈ profiles.map Profile.Name) ∧
    (plan.ApprovedProfiles = [] →
      executePlanRun plan addArgs o.tasks = ([], [])) := by
  rw [planExecutionRun] at h
  by_cases hp : profiles.isEmpty
  · simp [hp] at h
  · simp only [hp, Bool.false_eq_true, if_false] at h
    split at h
    · simp at h
    · split at h
      · simp at h
      · simp only [Prod.mk.injEq, Except.ok.injEq] at h
        obtain ⟨hplan, -⟩ := h
        subst hplan
        constructor
        · intro n hn
          have hsub := reviewOutcome_subset _ _ n hn
          rwa [parallelPass_names] at hsub
        · intro hap
          simp only [executePlanRun] at *
          rw [show filterApprovedProfiles profiles
              (ExecutionPlan.mk command profiles [] _).ApprovedProfiles = [] from ?_]
          · rfl
          · rw [filterApprovedProfiles]
            have : (ExecutionPlan.mk command profiles []
                (reviewAndApproveResults (parallelPass profiles
                  (previewOptions command addArgs) o.tasks).1
                  o.stdin).approved).ApprovedProfiles = [] := hap
            rw [this]
            simp [List.contains]

theorem plan_approved_subset_witness :
    executePlanRun ⟨chars "plan", [devProfile], [], []⟩ [] rejectOracle.tasks =
      ([], []) :=
  (plan_approved_subset (chars "plan") [devProfile] [] rejectOracle
    ⟨chars "plan", [devProfile], [], []⟩
    [.preflightInit, .taskInit (chars "dev"), .taskExec (chars "dev")]
    rfl).2 rfl

theorem initRun_events (o : InitOracle) :
    ∀ e ∈ (initRun o).2, e = ProcEvent.preflightInit ∨ e = ProcEvent.ssoLogin := by
  intro e he
  rw [initRun] at he
  split at he
  · simp at he
  · split at he
    · simp at he
      exact Or.inl he
    · split at he
      · split at he
        · simp at he
          exact Or.inl he
        · split at he
          · simp at he
            rcases he with rfl | rfl
            · exact Or.inl rfl
            · exact Or.inr rfl
          · split at he <;>
              { simp at he
                rcases he with rfl | rfl | rfl
                · exact Or.inl rfl
                · exact Or.inr rfl
                · exact Or.inl rfl }
      · simp at he
        exact Or.inl he

/-- C5 (amended): when workspace allocation fails, the whole invocation
fails and no per-profile task runs — the only processes that have run are
the pre-flight initialization ones (`terraform init` for the first profile
and a possible `aws sso login`), which the source spawns before
allocation. -/
theorem alloc_failure_aborts_after_preflight (command : Str)
    (profiles : List Profile) (addArgs : List Str) (o : PlanOracle)
    (hne : profiles ≠ []) (hinit : (initRun o.preflight).1 = none)
    (halloc : o.allocOk = false) :
    (planExecutionRun command profiles addArgs o).1 =
      .error (chars "error creating workspaces") ∧
    (planExecutionRun command profiles addArgs o).2 = (initRun o.preflight).2 ∧
    ∀ e ∈ (planExecutionRun command profiles addArgs o).2,
      e = ProcEvent.preflightInit ∨ e = ProcEvent.ssoLogin := by
  have hp : profiles.isEmpty = false := by
    cases profiles with
    | nil => exact absurd rfl hne
    | cons a l => rfl
  have hred : planExecutionRun command profiles addArgs o =
      (.error (chars "error creating workspaces"), (initRun o.preflight).2) := by
    rw [planExecutionRun]
    simp [hp, hinit, halloc]
  rw [hred]
  exact ⟨rfl, rfl, initRun_events o.preflight⟩

theorem alloc_failure_witness :
    (planExecutionRun (chars "apply") [devProfile] [] allocFailOracle).1 =
      .error (chars "error creating workspaces") :=
  (alloc_failure_aborts_after_preflight (chars "apply") [devProfile] []
    allocFailOracle (by simp) rfl rfl).1

/-- C5 counterexample: with workspace allocation failing, the invocation
does fail, but an external process has already been run before allocation —
the spawn trace at that point is the nonempty pre-flight `terraform init`
spawn, refuting "no external process has been run at any point before or
during allocation". -/
theorem alloc_failure_preflight_cex :
    (planExecutionRun (chars "apply") [devProfile] [] allocFailOracle).1 =
      .error (chars "error creating workspaces") ∧
    (planExecutionRun (chars "apply") [devProfile] [] allocFailOracle).2 =
      [ProcEvent.preflightInit] ∧
    (planExecutionRun (chars "apply") [devProfile] [] allocFailOracle).2 ≠ [] := by
  exact ⟨rfl, rfl, by decide⟩

theorem task_events_cases (prof : Profile) (opts : ExecutionOptions)
    (t : TaskOracle) :
    (executeForProfileTask prof opts t).2 = [] ∨
    (executeForProfileTask prof opts t).2 = [TaskEvent.initSpawn] ∨
    (executeForProfileTask prof opts t).2 =
      [TaskEvent.initSpawn, TaskEvent.execSpawn] := by
  rw [executeForProfileTask]
  rcases t.workspacePath with _ | ws
  · exact Or.inl rfl
  · dsimp only
    split
    · exact Or.inr (Or.inl rfl)
    · split
      · exact Or.inr (Or.inl rfl)
      · split
        · exact Or.inr (Or.inr rfl)
        · exact Or.inr (Or.inr rfl)

theorem task_spawn_counts (prof : Profile) (opts : ExecutionOptions)
    (t : TaskOracle) :
    (executeForProfileTask prof opts t).2.count TaskEvent.ssoLogin = 0 ∧
    (executeForProfileTask prof opts t).2.count TaskEvent.initSpawn ≤ 1 := by
  rcases task_events_cases prof opts t with h | h | h <;> rw [h] <;>
    exact ⟨by decide, by decide⟩

/-- C1 (amended): the retry-on-expiry logic lives only in the pre-flight
initialization (`Executor.Init`), which runs once, for the first profile, in
the source directory.  There, a first failure carrying the session-expiry
signature triggers exactly one Credential Refresher invocation and exactly
one retried init — two init spawns, one login spawn, never a third attempt —
and the retry's failure is returned as the profile's terminal error.  The
per-profile workspace initialization performs no credential refresh and no
retry: every profile task spawns the refresher zero times and the
workspace init at most once. -/
theorem credential_retry_preflight_only (o : InitOracle) (pname : Str)
    (hb : o.backendExists = true) (hf : o.firstInit.ok = false)
    (hsig : isAWSSSOTokenExpired o.firstInit.stderr = true)
    (hprof : extractProfileFromBackendConfig o.backendContent = .ok pname)
    (hlogin : o.loginOk = true) :
    (initRun o).2 =
      [ProcEvent.preflightInit, ProcEvent.ssoLogin, ProcEvent.preflightInit] ∧
    ((initRun o).1 = none ↔ o.secondInit.ok = true) ∧
    (o.secondInit.ok = false → (initRun o).1 = some (chars "exit status 1")) ∧
    ∀ (prof : Profile) (opts : ExecutionOptions) (t : TaskOracle),
      (executeForProfileTask prof opts t).2.count TaskEvent.ssoLogin = 0 ∧
      (executeForProfileTask prof opts t).2.count TaskEvent.initSpawn ≤ 1 := by
  have hred : initRun o =
      (if o.secondInit.ok then none else some (chars "exit status 1"),
       [ProcEvent.preflightInit, ProcEvent.ssoLogin, ProcEvent.preflightInit]) := by
    rw [initRun]
    simp [hb, hf, hsig, hprof, hlogin]
    by_cases hs : o.secondInit.ok = true <;> simp [hs]
  rw [hred]
  refine ⟨rfl, ?_, ?_, fun prof opts t => task_spawn_counts prof opts t⟩
  · by_cases hs : o.secondInit.ok <;> simp [hs]
  · intro hs
    simp [hs]

theorem credential_retry_preflight_only_witness :
    (initRun expiredInitOracle).2 =
      [ProcEvent.preflightInit, ProcEvent.ssoLogin, ProcEvent.preflightInit] :=
  (credential_retry_preflight_only expiredInitOracle (chars "dev")
    rfl rfl (by decide) rfl rfl).1

/-- C1 counterexample: a profile task whose workspace initialization fails
with captured stderr carrying the session-expiry signature invokes the
Credential Refresher zero times and makes exactly one init attempt — its
spawn trace is just the single init spawn and its result is the terminal
init error — refuting the claimed refresh-and-retry in the profile's
workspace. -/
theorem credential_retry_cex :
    (executeForProfileTask devProfile previewPlanOpts expiredWsTask).1.Error =
      some (chars "terraform init failed") ∧
    (executeForProfileTask devProfile previewPlanOpts expiredWsTask).2 =
      [TaskEvent.initSpawn] ∧
    (executeForProfileTask devProfile previewPlanOpts
        expiredWsTask).2.count TaskEvent.ssoLogin = 0 ∧
    isAWSSSOTokenExpired expiredWsTask.wsInit.stderr = true := by
  exact ⟨rfl, rfl, rfl, by decide⟩

theorem joinPath_nonempty (a b : Str) (hb : b.isEmpty = false) :
    (joinPath a b).isEmpty = false := by
  rw [joinPath]
  split
  · exact hb
  · split
    · simp_all
    · cases a <;> rfl

theorem varFile_isEmpty_false {v : Str} (h : v ≠ []) : v.isEmpty = false := by
  cases v with
  | nil => exact absurd rfl h
  | cons c t => rfl

/-- C6 (amended): when the profile's configured variable file does not exist
at the resolved path, building the command vector is a hard configuration
error (and when the file does exist the flag is always emitted, never
silently skipped); the profile's operation subprocess is never spawned — but
the error follows the profile's initialization subprocess, which the task
has already spawned before building the command. -/
theorem var_file_missing_hard_error (prof : Profile) (opts : ExecutionOptions)
    (o : TaskOracle) (ws : Str)
    (hws : o.workspacePath = some ws) (hinit : o.wsInit.ok = true)
    (hvf : prof.VarFile ≠ []) (hex : o.varFileExists = false)
    (hcmd : opts.Command = chars "plan" ∨ opts.Command = chars "apply" ∨
      opts.Command = chars "destroy") :
    buildCommandFromProfile prof ws opts false =
      .error (chars "var file not found: " ++
        getVarFilePath (profileBuilder prof ws)) ∧
    (executeForProfileTask prof opts o).1.Success = false ∧
    (executeForProfileTask prof opts o).1.Error =
      some (chars "command build failed: " ++
        (chars "var file not found: " ++ getVarFilePath (profileBuilder prof ws))) ∧
    (executeForProfileTask prof opts o).2 = [TaskEvent.initSpawn] ∧
    ∀ cmd : Cmd, buildCommandFromProfile prof ws opts true = .ok cmd →
      (chars "--var-file=" ++ joinPath prof.VarsDir prof.VarFile) ∈ cmd.args := by
  have hvfe : prof.VarFile.isEmpty = false := varFile_isEmpty_false hvf
  have hpath : (getVarFilePath (profileBuilder prof ws)).isEmpty = false := by
    rw [getVarFilePath]
    simp only [profileBuilder, hvfe, Bool.false_eq_true, if_false]
    split
    · exact joinPath_nonempty _ _ hvfe
    · exact joinPath_nonempty _ _ (joinPath_nonempty _ _ hvfe)
  have hval : validateVarFile (profileBuilder prof ws) false =
      some (chars "var file not found: " ++ getVarFilePath (profileBuilder prof ws)) := by
    rw [validateVarFile]
    simp [hpath]
  have hbuild : buildCommandFromProfile prof ws opts false =
      .error (chars "var file not found: " ++
        getVarFilePath (profileBuilder prof ws)) := by
    rw [buildCommandFromProfile]
    rw [if_pos hcmd, hval]
  have htask : executeForProfileTask prof opts o =
      (⟨prof.Name, false, [],
        some (chars "command build failed: " ++
          (chars "var file not found: " ++ getVarFilePath (profileBuilder prof ws))),
        ws⟩,
       [TaskEvent.initSpawn]) := by
    rw [executeForProfileTask, hws]
    dsimp only
    rw [hex]
    simp [hinit, hbuild]
  refine ⟨hbuild, by rw [htask], by rw [htask], by rw [htask], ?_⟩
  intro cmd hc
  rw [buildCommandFromProfile, if_pos hcmd] at hc
  have hval2 : validateVarFile (profileBuilder prof ws) true = none := by
    rw [validateVarFile]
    simp [hpath]
  rw [hval2] at hc
  dsimp only at hc
  have hcmd' : cmd = buildTerraformCommand (profileBuilder prof ws) opts := by
    cases hc
    rfl
  rw [hcmd', buildTerraformCommand]
  simp [profileBuilder, hvfe, newCommandBuilder]

theorem var_file_missing_hard_error_witness :
    (executeForProfileTask devProfile previewPlanOpts varMissingTask).2 =
      [TaskEvent.initSpawn] :=
  (var_file_missing_hard_error devProfile previewPlanOpts varMissingTask
    (chars "/ws") rfl rfl (by decide) rfl (Or.inl rfl)).2.2.2.1

/-- C6 counterexample: with a missing variable file the task does return a
configuration error, but a subprocess for that profile has already been
spawned — the spawn trace at the moment of the error is the nonempty
`[initSpawn]` — refuting "this error is returned before any subprocess is
spawned for that profile". -/
theorem var_file_missing_cex :
    (executeForProfileTask devProfile previewPlanOpts varMissingTask).1.Error ≠
      none ∧
    (executeForProfileTask devProfile previewPlanOpts varMissingTask).2 ≠
      ([] : List TaskEvent) := by
  exact ⟨by decide, by decide⟩

end Tapper
